import Mathlib

/-! Verification development for the `icarus-shared` helper library:
a shallow embedding of `shared/os_wrapper.py` and `shared/recent.py`,
together with the pieces of CPython's `posixpath` / `ntpath` standard
library modules that those functions call (`os.path.normpath`,
`os.path.expandvars`, `os.path.join`, `os.path.basename`, `str.replace`,
`str.split`, `str.startswith`, `str.endswith`).

Paths are plain strings.  The ambient operating system identifier
(`os.environ['IC_OS']`), the environment, the parsed contents of the
`IC_GLOBALS` configuration file and the outcomes of primitive OS calls are
supplied by a `Sys` record; filesystem side effects are collected in an
explicit trace.  The host path flavour (`posixpath` vs `ntpath`) is chosen
to agree with `IC_OS`, matching the intended deployment. -/

/-- Python `s.startswith(p)`. -/
def pyStartsWith (s p : String) : Bool := p.data.isPrefixOf s.data

/-- Python `s.endswith(p)`. -/
def pyEndsWith (s p : String) : Bool := p.data.isSuffixOf s.data

/-- Python `s.replace(old, new)` restricted to a single-character pattern
(the source only ever replaces `"\\"` by `"/"` or `"/"` by `"\\"`): every
occurrence of `a` is replaced by `b`. -/
def mapChar (a b : Char) (s : String) : String :=
  ⟨s.data.map (fun c => if c = a then b else c)⟩

/-- Splits a character list at the first occurrence of the pattern `old`:
returns the part strictly before it and the part strictly after it. -/
def breakFirst (old : List Char) : List Char → Option (List Char × List Char)
  | [] => if old.isEmpty then some ([], []) else none
  | c :: cs =>
    if old.isPrefixOf (c :: cs) then some ([], (c :: cs).drop old.length)
    else (breakFirst old cs).map (fun pr => (c :: pr.1, pr.2))

/-- Python `s.replace(old, new, 1)`: replace only the first occurrence. -/
def pyReplace1 (s old new : String) : String :=
  match breakFirst old.data s.data with
  | some pr => ⟨pr.1 ++ new.data ++ pr.2⟩
  | none => s

/-- Python `s.split(sep)` for a single-character separator: always returns a
nonempty list of (possibly empty) components. -/
def splitChar (sep : Char) : List Char → List (List Char)
  | [] => [[]]
  | c :: cs =>
    match splitChar sep cs with
    | [] => [[]]
    | h :: t => if c = sep then [] :: h :: t else (c :: h) :: t

/-- Splits at the first occurrence of the character `stop`: contents strictly
before it and the rest strictly after it, or `none` if absent (Python
`str.index` / regex scanning helper). -/
def breakAtChar (stop : Char) : List Char → Option (List Char × List Char)
  | [] => none
  | c :: cs =>
    if c = stop then some ([], cs)
    else (breakAtChar stop cs).map (fun pr => (c :: pr.1, pr.2))

/-- Python `s.rstrip('/')`. -/
def rstripSlash (s : String) : String :=
  ⟨(s.data.reverse.dropWhile (fun c => c = '/')).reverse⟩

/-- ASCII word character: `\w` under `re.ASCII`. -/
def isWordChar (c : Char) : Bool :=
  ('a' ≤ c && c ≤ 'z') || ('A' ≤ c && c ≤ 'Z') || ('0' ≤ c && c ≤ '9') || c = '_'

/-- CPython `posixpath.normpath`. -/
def posixNormpath (path : String) : String :=
  if path = "" then "." else
  let initialSlashes : Nat :=
    if pyStartsWith path "/" then
      if pyStartsWith path "//" && !(pyStartsWith path "///") then 2 else 1
    else 0
  let comps := splitChar '/' path.data
  let newComps := comps.foldl
    (fun acc comp =>
      if comp = [] ∨ comp = ['.'] then acc
      else if comp ≠ ['.', '.'] ∨ (initialSlashes = 0 ∧ acc = []) ∨
              (acc ≠ [] ∧ acc.getLast? = some ['.', '.']) then acc ++ [comp]
      else if acc ≠ [] then acc.dropLast
      else acc)
    []
  let joined := List.intercalate ['/'] newComps
  let res := List.replicate initialSlashes '/' ++ joined
  if res = [] then "." else ⟨res⟩

/-- CPython `posixpath.expandvars` over an explicit environment `env`
(Python's `os.environ`, with `none` meaning `KeyError`), as a fuel-indexed
scan over the character list.  Every recursive call strictly shrinks the
list, so fuel `l.length` (as used by `posixExpandvars` below) never runs
out; the `'$' not in path` early return of the source is a pure
optimization and is omitted.  Semantics of the scan: at each `$`, a braced
group `${name}` or a maximal nonempty ASCII-word run is looked up; a hit
substitutes the value (which is not rescanned), a miss leaves the text and
scanning resumes after it; a `$` starting no match is copied verbatim. -/
def posixExpandvarsLoop (env : String → Option String) : Nat → List Char → List Char
  | 0, l => l
  | _ + 1, [] => []
  | fuel + 1, c :: cs =>
    if c = '$' then
      match cs with
      | '{' :: r2 =>
        match breakAtChar '}' r2 with
        | some (name, after) =>
          (match env ⟨name⟩ with
           | some v => v.data
           | none => '$' :: '{' :: (name ++ ['}'])) ++ posixExpandvarsLoop env fuel after
        | none => '$' :: posixExpandvarsLoop env fuel cs
      | _ =>
        let name := cs.takeWhile isWordChar
        if name = [] then '$' :: posixExpandvarsLoop env fuel cs
        else (match env ⟨name⟩ with
              | some v => v.data
              | none => '$' :: name) ++ posixExpandvarsLoop env fuel (cs.drop name.length)
    else c :: posixExpandvarsLoop env fuel cs

/-- CPython `posixpath.expandvars`. -/
def posixExpandvars (env : String → Option String) (path : String) : String :=
  ⟨posixExpandvarsLoop env path.data.length path.data⟩

/-- CPython `posixpath.join` restricted to two arguments. -/
def posixJoin (a b : String) : String :=
  if pyStartsWith b "/" then b
  else if a = "" ∨ pyEndsWith a "/" then a ++ b
  else a ++ "/" ++ b

/-- Finds the index of the first occurrence of `c` in `l` at or after
position `start` (Python `str.find(c, start)`), or `none`. -/
def findFrom (l : List Char) (c : Char) (start : Nat) : Option Nat :=
  match (l.drop start).findIdx? (fun d => d = c) with
  | some i => some (start + i)
  | none => none

/-- CPython `ntpath.splitdrive`. -/
def ntSplitdrive (p : String) : String × String :=
  if p.length ≥ 2 then
    let normp := mapChar '/' '\\' p
    if pyStartsWith normp "\\\\" && !(pyStartsWith normp "\\\\\\") then
      -- UNC path, \\machine\mountpoint\directory
      match findFrom normp.data '\\' 2 with
      | none => ("", p)
      | some idx =>
        match findFrom normp.data '\\' (idx + 1) with
        | some idx2 =>
          if idx2 = idx + 1 then ("", p)
          else (⟨p.data.take idx2⟩, ⟨p.data.drop idx2⟩)
        | none => (p, "")
    else if normp.data.get? 1 = some ':' then (⟨p.data.take 2⟩, ⟨p.data.drop 2⟩)
    else ("", p)
  else ("", p)

/-- The in-place component-deletion loop of CPython `ntpath.normpath`,
written with an accumulator of already-processed components (in reverse):
empty and `.` components are dropped, `..` pops the previous component
unless it is itself `..`, and a leading `..` is dropped exactly when the
drive/root part ends in a separator. -/
def ntCompsLoop (pfxEndsSep : Bool) : List (List Char) → List (List Char) → List (List Char)
  | acc, [] => acc.reverse
  | acc, c :: rest =>
    if c = [] ∨ c = ['.'] then ntCompsLoop pfxEndsSep acc rest
    else if c = ['.', '.'] then
      match acc with
      | a :: as =>
        if a ≠ ['.', '.'] then ntCompsLoop pfxEndsSep as rest
        else ntCompsLoop pfxEndsSep (c :: a :: as) rest
      | [] =>
        if pfxEndsSep then ntCompsLoop pfxEndsSep [] rest
        else ntCompsLoop pfxEndsSep [c] rest
    else ntCompsLoop pfxEndsSep (c :: acc) rest

/-- CPython `ntpath.normpath`. -/
def ntNormpath (path : String) : String :=
  if pyStartsWith path "\\\\.\\" ∨ pyStartsWith path "\\\\?\\" then path else
  let path1 := mapChar '/' '\\' path
  let dp := ntSplitdrive path1
  let pfx := if pyStartsWith dp.2 "\\" then dp.1 ++ "\\" else dp.1
  let rest : List Char :=
    if pyStartsWith dp.2 "\\" then dp.2.data.dropWhile (fun c => c = '\\') else dp.2.data
  let comps := ntCompsLoop (pyEndsWith pfx "\\") [] (splitChar '\\' rest)
  let comps2 := if pfx = "" ∧ comps = [] then [['.']] else comps
  pfx ++ ⟨List.intercalate ['\\'] comps2⟩

/-- CPython `ntpath.split`. -/
def ntSplit (p : String) : String × String :=
  let dp := ntSplitdrive p
  let rest := dp.2.data
  let tailPart := (rest.reverse.takeWhile (fun c => !(c = '\\' || c = '/'))).reverse
  let headPart := rest.take (rest.length - tailPart.length)
  let headStripped := (headPart.reverse.dropWhile (fun c => c = '\\' || c = '/')).reverse
  let headFinal := if headStripped = [] then headPart else headStripped
  (dp.1 ++ ⟨headFinal⟩, ⟨tailPart⟩)

/-- CPython `ntpath.basename`: `split(p)[1]`. -/
def ntBasename (p : String) : String := (ntSplit p).2

/-- CPython `ntpath.join` restricted to two arguments. -/
def ntJoin (path b : String) : String :=
  let isSep : Char → Bool := fun c => c = '\\' || c = '/'
  let rd := ntSplitdrive path
  let pd := ntSplitdrive b
  let step : String × String :=
    if pd.2 ≠ "" ∧ isSep (pd.2.data.headD ' ') then
      -- second path is absolute
      (if pd.1 ≠ "" ∨ rd.1 = "" then pd.1 else rd.1, pd.2)
    else if pd.1 ≠ "" ∧ pd.1 ≠ rd.1 then
      if pd.1.toLower ≠ rd.1.toLower then
        -- different drives: ignore the first path entirely
        (pd.1, pd.2)
      else
        -- same drive in a different case
        (pd.1,
         (if rd.2 ≠ "" ∧ ¬ isSep (rd.2.data.getLast?.getD ' ') then rd.2 ++ "\\" else rd.2) ++ pd.2)
    else
      (rd.1,
       (if rd.2 ≠ "" ∧ ¬ isSep (rd.2.data.getLast?.getD ' ') then rd.2 ++ "\\" else rd.2) ++ pd.2)
  if step.2 ≠ "" ∧ ¬ isSep (step.2.data.headD ' ') ∧ step.1 ≠ "" ∧ ¬ pyEndsWith step.1 ":" then
    step.1 ++ "\\" ++ step.2
  else step.1 ++ step.2

/-- Character class used by CPython `ntpath.expandvars`:
`string.ascii_letters + string.digits + '_-'`. -/
def ntVarChar (c : Char) : Bool :=
  ('a' ≤ c && c ≤ 'z') || ('A' ≤ c && c ≤ 'Z') || ('0' ≤ c && c ≤ '9') || c = '_' || c = '-'

/-- The single-quote character. -/
def quoteChar : Char := Char.ofNat 39

/-- CPython `ntpath.expandvars` over an explicit environment, fuel-indexed
exactly like `posixExpandvarsLoop` (fuel `l.length` suffices).  The scan:
text between single quotes is copied verbatim; `%%` and `$$` collapse;
`%name%`, `${name}` and `$name` are looked up, a miss leaving the original
text; substituted values are not rescanned.  The `'$' not in path and '%'
not in path` early return of the source is a pure optimization (the scan
copies every other character unchanged) and is omitted. -/
def ntExpandvarsLoop (env : String → Option String) : Nat → List Char → List Char
  | 0, l => l
  | _ + 1, [] => []
  | fuel + 1, c :: cs =>
    if c = quoteChar then
      match breakAtChar quoteChar cs with
      | some (inner, after) => c :: (inner ++ quoteChar :: ntExpandvarsLoop env fuel after)
      | none => c :: cs
    else if c = '%' then
      match cs with
      | '%' :: r2 => '%' :: ntExpandvarsLoop env fuel r2
      | _ =>
        match breakAtChar '%' cs with
        | none => '%' :: cs
        | some (var, after) =>
          (match env ⟨var⟩ with
           | some v => v.data
           | none => '%' :: (var ++ ['%'])) ++ ntExpandvarsLoop env fuel after
    else if c = '$' then
      match cs with
      | '$' :: r2 => '$' :: ntExpandvarsLoop env fuel r2
      | '{' :: r2 =>
        match breakAtChar '}' r2 with
        | none => '$' :: '{' :: r2
        | some (var, after) =>
          (match env ⟨var⟩ with
           | some v => v.data
           | none => '$' :: '{' :: (var ++ ['}'])) ++ ntExpandvarsLoop env fuel after
      | _ =>
        let var := cs.takeWhile ntVarChar
        (match env ⟨var⟩ with
         | some v => v.data
         | none => '$' :: var) ++ ntExpandvarsLoop env fuel (cs.drop var.length)
    else c :: ntExpandvarsLoop env fuel cs

/-- CPython `ntpath.expandvars`. -/
def ntExpandvars (env : String → Option String) (path : String) : String :=
  ⟨ntExpandvarsLoop env path.data.length path.data⟩

/-- The exception classes caught by `translate_path` and
`convert_unc_path_to_drive`:
`(AttributeError, IOError, KeyError, TypeError, ValueError)`. -/
inductive PyExc where
  | attributeError
  | ioError
  | keyError
  | typeError
  | valueError
deriving DecidableEq, Repr

/-- One entry of `translation.rules` in the `IC_GLOBALS` JSON file:
`{mac, win, linux}` path-prefix triple. -/
structure TrRule where
  mac : String
  win : String
  linux : String
deriving DecidableEq, Repr

/-- The ambient system a run of `os_wrapper` sees: the `IC_OS` environment
variable, the rest of the environment (for `os.path.expandvars`), the
outcome of opening and JSON-parsing the `IC_GLOBALS` file (`openGlobals`),
the outcome of extracting `translation.rules` / `drives.mappings` from it
(`loadRules` / `loadDrives`, an `Except.error` covering `AttributeError`,
`KeyError`, `TypeError`, ... raised by the `.get` chains and iteration),
oracles for filesystem predicates, and the outcome of each primitive OS
call — `none` meaning success, `some msg` meaning the call raised with
formatted message `msg`.  `statId` is the `os.stat` identity (`none` when
`stat` raises); `numrecent` is `int(os.environ.get('IC_NUMRECENTFILES', 10))`. -/
structure Sys where
  icos : String
  env : String → Option String
  openGlobals : Except PyExc Unit
  loadRules : Except PyExc (List TrRule)
  loadDrives : Except PyExc (List (String × String))
  isFile : String → Bool
  isDir : String → Bool
  scandir : String → List (String × Bool)
  listdir : String → List String
  statId : String → Option Nat
  removeOk : String → Option String
  rmtreeOk : String → Option String
  makedirsOk : String → Option String
  renameOk : String → String → Option String
  copyfileOk : String → String → Option String
  moveOk : String → String → Option String
  copy2Ok : String → String → Option String
  numrecent : Nat

/-- The value a filesystem-layer function returns.  Python is dynamically
typed: different functions (and different branches of the same function)
return a bare string, a bare boolean, a `(flag, string)` tuple, or the
implicit `None` of falling off the end of a function. -/
inductive OsRet where
  | str : String → OsRet
  | boolv : Bool → OsRet
  | pairS : Bool → String → OsRet
  | pyNone : OsRet
deriving DecidableEq, Repr

/-- Whether the returned value is a `(flag, string)` two-part tuple. -/
def OsRet.isPair : OsRet → Bool
  | .pairS _ _ => true
  | _ => false

/-- Whether the returned value is a bare boolean. -/
def OsRet.isBool : OsRet → Bool
  | .boolv _ => true
  | _ => false

/-- Whether the returned value is a bare string. -/
def OsRet.isStr : OsRet → Bool
  | .str _ => true
  | _ => false

/-- The side effects (attempted OS mutations and warnings) of one
filesystem-layer call, in order. -/
inductive Eff where
  | sysCmd : String → Eff
  | removeFile : String → Eff
  | rmtree : String → Eff
  | makedirs : String → Eff
  | setHidden : String → Eff
  | renamed : String → String → Eff
  | copyfile : String → String → Eff
  | moved : String → String → Eff
  | copy2 : String → String → Eff
  | warned : String → Eff
deriving DecidableEq, Repr

/-- `os.path.normpath` of the host, which is assumed to match `IC_OS`. -/
def osNormpath (icos : String) (p : String) : String :=
  if icos = "win" then ntNormpath p else posixNormpath p

/-- `os.path.expandvars` of the host. -/
def osExpandvars (sys : Sys) (p : String) : String :=
  if sys.icos = "win" then ntExpandvars sys.env p else posixExpandvars sys.env p

/-- `os.path.join` of the host (two arguments). -/
def osJoin (icos : String) (a b : String) : String :=
  if icos = "win" then ntJoin a b else posixJoin a b

/-- `os_wrapper.absolute_path`: expand environment variables, normalize,
replace all backslashes with forward slashes; empty input maps to `""`;
optionally strip trailing slashes. -/
def absolute_path (sys : Sys) (relPath : String) (stripTrailingSlash : Bool) : String :=
  if relPath ≠ "" then
    let s := mapChar '\\' '/' (osNormpath sys.icos (osExpandvars sys relPath))
    if stripTrailingSlash then rstripSlash s else s
  else ""

/-- Appends a backslash when the string ends in a bare drive colon — the
`if path_tr.endswith(":"): path_tr += "\\"` fixup of `os_wrapper`. -/
def colonFix (s : String) : String := if pyEndsWith s ":" then s ++ "\\" else s

/-- One iteration of the rule loop in `os_wrapper.translate_path`.  Note
that the source tests and rewrites `path` — the function's argument — not
the running result `path_tr`, and that on the Windows target the
trailing-colon fixup is re-checked on every iteration, matching or not. -/
def trStep (icos path : String) (path_tr : String) (rule : TrRule) : String :=
  if icos = "win" then
    colonFix
      (if pyStartsWith path rule.mac then pyReplace1 path rule.mac rule.win
       else if pyStartsWith path rule.linux then pyReplace1 path rule.linux rule.win
       else path_tr)
  else if icos = "mac" then
    (if pyStartsWith path rule.win then pyReplace1 path rule.win rule.mac
     else if pyStartsWith path rule.linux then pyReplace1 path rule.linux rule.mac
     else path_tr)
  else
    (if pyStartsWith path rule.win then pyReplace1 path rule.win rule.linux
     else if pyStartsWith path rule.mac then pyReplace1 path rule.mac rule.linux
     else path_tr)

/-- `os_wrapper.translate_path`.  The whole body sits in a
`try/except (AttributeError, IOError, KeyError, TypeError, ValueError)`
that returns the original `path`: a failure opening or parsing the
`IC_GLOBALS` file (`openGlobals`) or extracting `translation.rules` from it
(`loadRules`) therefore yields `path` unchanged.  Otherwise the rules are
folded over `trStep` and the result is passed through `absolute_path`. -/
def translate_path (sys : Sys) (path : String) : String :=
  match sys.openGlobals with
  | .error _ => path
  | .ok _ =>
    match sys.loadRules with
    | .error _ => path
    | .ok rules => absolute_path sys (rules.foldl (trStep sys.icos path) path) false

/-- The `translation.rules` list a run sees, `[]` when loading failed. -/
def rulesOfSys (sys : Sys) : List TrRule :=
  match sys.openGlobals with
  | .error _ => []
  | .ok _ =>
    match sys.loadRules with
    | .error _ => []
    | .ok rules => rules

/-- Whether a rule fires for `path`: on the Windows target the foreign
prefixes are `mac` and `linux`, on macOS `win` and `linux`, on Linux `win`
and `mac` (mirrors the tests in `trStep`). -/
def ruleMatches (icos path : String) (r : TrRule) : Bool :=
  if icos = "win" then pyStartsWith path r.mac || pyStartsWith path r.linux
  else if icos = "mac" then pyStartsWith path r.win || pyStartsWith path r.linux
  else pyStartsWith path r.win || pyStartsWith path r.mac

/-- The rewrite a matching rule performs on the original `path` (first
occurrence of the matched foreign prefix replaced by the native prefix). -/
def applyRule (icos path : String) (r : TrRule) : String :=
  if icos = "win" then
    (if pyStartsWith path r.mac then pyReplace1 path r.mac r.win
     else pyReplace1 path r.linux r.win)
  else if icos = "mac" then
    (if pyStartsWith path r.win then pyReplace1 path r.win r.mac
     else pyReplace1 path r.linux r.mac)
  else
    (if pyStartsWith path r.win then pyReplace1 path r.win r.linux
     else pyReplace1 path r.mac r.linux)

/-- The last rule in the list that matches `path`, if any. -/
def lastMatch (icos path : String) : List TrRule → Option TrRule
  | [] => none
  | r :: rs =>
    match lastMatch icos path rs with
    | some r' => some r'
    | none => if ruleMatches icos path r then some r else none

/-- Specification-side description of the rule pass of `translate_path`:
the LAST rule whose foreign prefix matches the ORIGINAL input wins and is
applied to the original input (with the Windows drive-colon fixup); if no
rule matches, the input survives, except that on the Windows target a
nonempty rule list still applies the drive-colon fixup. -/
def lastMatchTranslate (icos path : String) (rules : List TrRule) : String :=
  match lastMatch icos path rules with
  | some r => if icos = "win" then colonFix (applyRule icos path r) else applyRule icos path r
  | none => if icos = "win" ∧ rules ≠ [] then colonFix path else path

/-- One iteration of the mapping loop in
`os_wrapper.convert_unc_path_to_drive`: the prefix test is against `path`
(the normalized input, constant across iterations) and the UNC VALUE of the
entry, and the drive-colon fixup runs only when the entry matched. -/
def driveStep (path : String) (path_tr : String) (m : String × String) : String :=
  if pyStartsWith path m.2 then colonFix (pyReplace1 path m.2 m.1) else path_tr

/-- The last `(driveLetter, uncValue)` entry whose UNC value is a prefix of
`path`, if any. -/
def lastDriveMatch (path : String) : List (String × String) → Option (String × String)
  | [] => none
  | m :: ms =>
    match lastDriveMatch path ms with
    | some m' => some m'
    | none => if pyStartsWith path m.2 then some m else none

/-- Specification-side description of the mapping pass: the last matching
entry (matched by UNC value, not key) rewrites the normalized path, its UNC
value replaced by its drive-letter key, with the drive-colon fixup. -/
def driveLastMatchResult (path : String) (ms : List (String × String)) : String :=
  match lastDriveMatch path ms with
  | some m => colonFix (pyReplace1 path m.2 m.1)
  | none => path

/-- `os_wrapper.convert_unc_path_to_drive`.  A non-Windows `IC_OS` returns
the argument untouched (before the `try`).  Inside the `try` the source
rebinds `path = absolute_path(path)` BEFORE touching `drives.mappings`, so
an open/parse failure returns the original argument while a failure of the
`.get('drives').get('mappings')` chain returns the already-normalized
path. -/
def convert_unc_path_to_drive (sys : Sys) (path : String) : String :=
  if sys.icos ≠ "win" then path
  else
    match sys.openGlobals with
    | .error _ => path
    | .ok _ =>
      let p := absolute_path sys path false
      match sys.loadDrives with
      | .error _ => p
      | .ok ms => ms.foldl (driveStep p) p

/-- `os_wrapper.remove`: normalize, delete a file or a directory tree; the
whole attempt sits in a bare `try/except` returning `(False, msg)`.  When
the path is neither an existing file nor an existing directory NO branch of
the `if/elif` runs and the `try` block still ends in `return True, path`. -/
def remove (sys : Sys) (path : String) (quiet : Bool) : OsRet × List Eff :=
  let p := osNormpath sys.icos path
  if sys.isFile p then
    match sys.removeOk p with
    | none => (.pairS true p, [.removeFile p])
    | some msg => (.pairS false msg, [.removeFile p])
  else if sys.isDir p then
    match sys.rmtreeOk p with
    | none => (.pairS true p, [.rmtree p])
    | some msg => (.pairS false msg, [.rmtree p])
  else (.pairS true p, [])

/-- `os_wrapper.rename`: normalize both, `os.rename`, `(True, dst)` on
success and `(False, msg)` on any exception. -/
def rename (sys : Sys) (source destination : String) (quiet : Bool) : OsRet × List Eff :=
  let src := osNormpath sys.icos source
  let dst := osNormpath sys.icos destination
  match sys.renameOk src dst with
  | none => (.pairS true dst, [.renamed src dst])
  | some msg => (.pairS false msg, [.renamed src dst])

/-- `os_wrapper.copy`: normalize both, `shutil.copyfile`, `(True, dst)` on
success and `(False, msg)` on any exception. -/
def copy (sys : Sys) (source destination : String) (quiet : Bool) : OsRet × List Eff :=
  let src := osNormpath sys.icos source
  let dst := osNormpath sys.icos destination
  match sys.copyfileOk src dst with
  | none => (.pairS true dst, [.copyfile src dst])
  | some msg => (.pairS false msg, [.copyfile src dst])

/-- `os_wrapper.move`: normalize both, `shutil.move`, then a BARE `True` on
success and a BARE `False` on any exception — no tuple. -/
def move (sys : Sys) (source destination : String) (quiet : Bool) : OsRet × List Eff :=
  let src := osNormpath sys.icos source
  let dst := osNormpath sys.icos destination
  match sys.moveOk src dst with
  | none => (.boolv true, [.moved src dst])
  | some _ => (.boolv false, [.moved src dst])

/-- `os_wrapper.mkdir`: translate the path; an already-existing directory
short-circuits returning the BARE path string; otherwise `os.makedirs`
(plus, on the Windows target, hiding dot-named directories) returns the
BARE path, and any exception returns the BARE Python `False` — never a
`(False, msg)` tuple. -/
def mkdir (sys : Sys) (path : String) : OsRet × List Eff :=
  let p := translate_path sys path
  if sys.isDir p then (.str p, [])
  else
    match sys.makedirsOk p with
    | some _ => (.boolv false, [.makedirs p])
    | none =>
      if sys.icos = "win" ∧ pyStartsWith (ntBasename p) "." then
        (.str p, [.makedirs p, .setHidden p])
      else (.str p, [.makedirs p])

/-- The `for item in os.listdir(src)` loop of `os_wrapper.copy_tree`.
A directory entry evaluates `shutil.copytree(s, d, symlinks, ignore)` whose
arguments `symlinks` and `ignore` are UNBOUND NAMES in the module: Python
raises `NameError` before copying anything, the bare `except` catches it,
and the function returns the bare `False`.  A file entry runs
`shutil.copy2`; its failure also returns `False`. -/
def copyTreeLoop (sys : Sys) (src dst : String) : List String → List Eff → OsRet × List Eff
  | [], acc => (.boolv true, acc)
  | item :: rest, acc =>
    let s := osJoin sys.icos src item
    let d := osJoin sys.icos dst item
    if sys.isDir s then (.boolv false, acc)
    else
      match sys.copy2Ok s d with
      | none => copyTreeLoop sys src dst rest (acc ++ [.copy2 s d])
      | some _ => (.boolv false, acc ++ [.copy2 s d])

/-- `os_wrapper.copy_tree`: normalize both paths and run the top-level
listing loop; returns a bare boolean. -/
def copy_tree (sys : Sys) (source destination : String) (quiet : Bool) : OsRet × List Eff :=
  let src := osNormpath sys.icos source
  let dst := osNormpath sys.icos destination
  copyTreeLoop sys src dst (sys.listdir src) []

/-- `os_wrapper.verify_hardlink`: `os.stat(src) == os.stat(dst)` inside a
bare `try` whose `except: pass` falls through to `return False`. -/
def verify_hardlink (sys : Sys) (src dst : String) : Bool :=
  match sys.statId src, sys.statId dst with
  | some a, some b => a == b
  | _, _ => false

/-- The real destination of `os_wrapper.hardlink`: on the Windows target an
existing directory destination gets the source's base filename appended. -/
def hardlinkDst (sys : Sys) (src dst : String) : String :=
  if sys.icos = "win" ∧ sys.isDir dst then ntJoin dst (ntBasename src) else dst

/-- `os_wrapper.hardlink`: translate both paths; on the Windows target
adjust a directory destination and force-remove an existing destination
file; run the platform link command through `os.system`; with
`verify=True`, return `dst` when `verify_hardlink` confirms the link, and
otherwise log a warning, fall back to `copy(src, dst)` and — the source
having no `return` on that path — return Python's implicit `None`.  With
`verify=False` return `dst` unconditionally. -/
def hardlink (sys : Sys) (source destination : String) (verify : Bool) : OsRet × List Eff :=
  let src := translate_path sys source
  let dst := hardlinkDst sys src (translate_path sys destination)
  let preEffs : List Eff :=
    if sys.icos = "win" ∧ sys.isFile dst then (remove sys dst false).2 else []
  let cmd : String :=
    if sys.icos = "win" then
      "fsutil hardlink create \"" ++ dst ++ "\" \"" ++ src ++ "\" >nul"
    else "ln -f " ++ src ++ " " ++ dst
  let effs0 := preEffs ++ [Eff.sysCmd cmd]
  if verify then
    if verify_hardlink sys src dst then (.str dst, effs0)
    else
      (.pyNone,
       effs0 ++ [Eff.warned "Failed to create hardlink. Attempting to copy file instead."] ++
         (copy sys src dst false).2)
  else (.str dst, effs0)

/-- The subdirectory entry paths of one `os.scandir` pass in
`os_wrapper.walk` (each `entry.path` is `os.path.join(top, name)`). -/
def walkDirs (sys : Sys) (top : String) : List String :=
  (sys.scandir top).filterMap (fun e => if e.2 then some (osJoin sys.icos top e.1) else none)

/-- The non-directory entry paths of one `os.scandir` pass in
`os_wrapper.walk`. -/
def walkFiles (sys : Sys) (top : String) : List String :=
  (sys.scandir top).filterMap (fun e => if e.2 then none else some (osJoin sys.icos top e.1))

/-- `os_wrapper.walk`, as the finite list of yielded
`(top, dirs, nondirs)` triples: normalize `top`, yield its listing, and
recurse into each subdirectory only when `maxdepth > 1`, with
`maxdepth - 1`.  (The Python `maxdepth` is an int; depths `≤ 1` all behave
like `1`, so `Nat` loses nothing.) -/
def walk (sys : Sys) (top : String) (maxdepth : Nat) : List (String × List String × List String) :=
  (osNormpath sys.icos top,
   walkDirs sys (osNormpath sys.icos top),
   walkFiles sys (osNormpath sys.icos top)) ::
    (match maxdepth with
     | Nat.succ (Nat.succ md) =>
       (walkDirs sys (osNormpath sys.icos top)).flatMap (fun p => walk sys p (Nat.succ md))
     | _ => [])

/-- The persisted state of `recent.Recent`: the JSON dictionary (an ordered
association list, as Python 3 dicts preserve insertion order) and the
instance's default key. -/
structure RecentState where
  dict : List (String × List String)
  key : String
deriving DecidableEq, Repr

/-- Python dict assignment `d[k] = v` on an ordered association list:
replaces in place, or appends a new binding. -/
def dictSet (d : List (String × List String)) (k : String) (v : List String) :
    List (String × List String) :=
  match d with
  | [] => [(k, v)]
  | (k', v') :: rest => if k' = k then (k, v) :: rest else (k', v') :: dictSet rest k v

/-- The `while len(recentlist) > maxN: recentlist.pop()` loop of
`Recent.put`, popping from the END; fuel-indexed (each pop shortens the
list, so fuel `l.length` as supplied by `Recent.put` never runs out). -/
def popLoop (fuel : Nat) (l : List String) (maxN : Nat) : List String :=
  match fuel with
  | 0 => l
  | f + 1 => if l.length > maxN then popLoop f l.dropLast maxN else l

/-- `recent.Recent.put`: look the key up (a missing key starts from `[]`),
delete the first existing occurrence of the entry, prepend it, pop from the
end down to `IC_NUMRECENTFILES`, store, save.  `key?` is the optional
`key` argument (`none` uses `self.key`). -/
def Recent.put (sys : Sys) (st : RecentState) (newEntry : String) (key? : Option String) :
    RecentState :=
  let key := key?.getD st.key
  let l0 := (List.lookup key st.dict).getD []
  let l1 := if l0.contains newEntry then l0.erase newEntry else l0
  let l2 := newEntry :: l1
  let l3 := popLoop l2.length l2 sys.numrecent
  { st with dict := dictSet st.dict key l3 }

/-- `recent.Recent.get` with `last=False` (the default): look the key up
(`KeyError` yields `[]`) and slice to `IC_NUMRECENTFILES` entries. -/
def Recent.get (sys : Sys) (st : RecentState) (key? : Option String) : List String :=
  let key := key?.getD st.key
  match List.lookup key st.dict with
  | none => []
  | some l => l.take sys.numrecent

theorem data_append (a b : String) : (a ++ b).data = a.data ++ b.data := rfl

theorem pyEndsWith_append_backslash (s : String) : pyEndsWith (s ++ "\\") ":" = false := by
  simp [pyEndsWith, List.isSuffixOf, data_append, List.isPrefixOf]

theorem colonFix_colonFix (s : String) : colonFix (colonFix s) = colonFix s := by
  unfold colonFix
  by_cases h : pyEndsWith s ":" = true
  · simp [h, pyEndsWith_append_backslash]
  · simp [h]

theorem trStep_of_match (icos path acc : String) (r : TrRule)
    (h : ruleMatches icos path r = true) :
    trStep icos path acc r =
      if icos = "win" then colonFix (applyRule icos path r) else applyRule icos path r := by
  unfold trStep applyRule
  unfold ruleMatches at h
  by_cases hw : icos = "win"
  · simp only [hw, if_true] at h ⊢
    rcases Bool.or_eq_true_iff.mp h with h1 | h1 <;> simp [h1]
  · by_cases hm : icos = "mac"
    · simp only [hw, hm, if_true, if_false] at h ⊢
      rcases Bool.or_eq_true_iff.mp h with h1 | h1 <;> simp [h1]
    · simp only [hw, hm, if_false] at h ⊢
      rcases Bool.or_eq_true_iff.mp h with h1 | h1 <;> simp [h1]

theorem trStep_of_not_match (icos path acc : String) (r : TrRule)
    (h : ruleMatches icos path r = false) :
    trStep icos path acc r = if icos = "win" then colonFix acc else acc := by
  unfold trStep
  unfold ruleMatches at h
  by_cases hw : icos = "win"
  · simp only [hw, if_true] at h ⊢
    rcases Bool.or_eq_false_iff.mp h with ⟨h1, h2⟩
    simp [h1, h2]
  · by_cases hm : icos = "mac"
    · simp only [hw, hm, if_true, if_false] at h ⊢
      rcases Bool.or_eq_false_iff.mp h with ⟨h1, h2⟩
      simp [h1, h2]
    · simp only [hw, hm, if_false] at h ⊢
      rcases Bool.or_eq_false_iff.mp h with ⟨h1, h2⟩
      simp [h1, h2]

theorem foldl_trStep_eq (icos path : String) (rules : List TrRule) : ∀ acc : String,
    rules.foldl (trStep icos path) acc =
      (match lastMatch icos path rules with
       | some r =>
         if icos = "win" then colonFix (applyRule icos path r) else applyRule icos path r
       | none => if icos = "win" ∧ rules ≠ [] then colonFix acc else acc) := by
  induction rules with
  | nil => intro acc; simp [lastMatch]
  | cons r rs ih =>
    intro acc
    rw [List.foldl_cons, ih (trStep icos path acc r)]
    cases hlm : lastMatch icos path rs with
    | some r' => simp [lastMatch, hlm]
    | none =>
      by_cases hm : ruleMatches icos path r = true
      · rw [trStep_of_match icos path acc r hm]
        simp only [lastMatch, hlm, hm, if_true]
        by_cases hw : icos = "win"
        · by_cases hrs : rs = ([] : List TrRule)
          · simp [hw, hrs]
          · simp [hw, hrs, colonFix_colonFix]
        · simp [hw]
      · have hm' : ruleMatches icos path r = false := by
          revert hm; cases ruleMatches icos path r <;> simp
        rw [trStep_of_not_match icos path acc r hm']
        simp only [lastMatch, hlm, hm']
        by_cases hw : icos = "win"
        · by_cases hrs : rs = ([] : List TrRule)
          · simp [hw, hrs]
          · simp [hw, hrs, colonFix_colonFix]
        · simp [hw]

theorem lastMatch_eq_none (icos path : String) (rules : List TrRule)
    (h : ∀ r ∈ rules, ruleMatches icos path r = false) :
    lastMatch icos path rules = none := by
  induction rules with
  | nil => rfl
  | cons r rs ih =>
    have hr : ruleMatches icos path r = false := h r (List.mem_cons_self r rs)
    have hrs : lastMatch icos path rs = none :=
      ih (fun x hx => h x (List.mem_cons_of_mem r hx))
    simp [lastMatch, hrs, hr]

theorem foldl_driveStep_eq (path : String) (ms : List (String × String)) : ∀ acc : String,
    ms.foldl (driveStep path) acc =
      (match lastDriveMatch path ms with
       | some m => colonFix (pyReplace1 path m.2 m.1)
       | none => acc) := by
  induction ms with
  | nil => intro acc; simp [lastDriveMatch]
  | cons m ms' ih =>
    intro acc
    rw [List.foldl_cons, ih (driveStep path acc m)]
    cases hlm : lastDriveMatch path ms' with
    | some m' => simp [lastDriveMatch, hlm]
    | none =>
      by_cases hm : pyStartsWith path m.2 = true
      · simp [lastDriveMatch, hlm, hm, driveStep]
      · have hm' : pyStartsWith path m.2 = false := by
          revert hm; cases pyStartsWith path m.2 <;> simp
        simp [lastDriveMatch, hlm, hm', driveStep]

theorem flatMap_single {α β : Type} (l : List α) (f : α → List β)
    (g : α → β) (hf : ∀ a, f a = [g a]) : l.flatMap f = l.map g := by
  induction l with
  | nil => rfl
  | cons a as ih => simp [List.flatMap_cons, hf, ih]

theorem copyTreeLoop_isBool (sys : Sys) (src dst : String) (items : List String) :
    ∀ acc : List Eff, ((copyTreeLoop sys src dst items acc).1).isBool = true := by
  induction items with
  | nil => intro acc; rfl
  | cons item rest ih =>
    intro acc
    unfold copyTreeLoop
    by_cases hd : sys.isDir (osJoin sys.icos src item) = true
    · simp [hd, OsRet.isBool]
    · simp only [hd, if_false, Bool.false_eq_true]
      cases sys.copy2Ok (osJoin sys.icos src item) (osJoin sys.icos dst item) with
      | none => exact ih _
      | some m => rfl

theorem copyTreeLoop_false_of_dir (sys : Sys) (src dst : String) (items : List String) :
    ∀ acc : List Eff, (∃ item ∈ items, sys.isDir (osJoin sys.icos src item) = true) →
      (copyTreeLoop sys src dst items acc).1 = OsRet.boolv false := by
  induction items with
  | nil => intro acc h; simp at h
  | cons item rest ih =>
    intro acc h
    unfold copyTreeLoop
    by_cases hd : sys.isDir (osJoin sys.icos src item) = true
    · simp [hd]
    · have h' : ∃ x ∈ rest, sys.isDir (osJoin sys.icos src x) = true := by
        rcases h with ⟨x, hx, hdx⟩
        rcases List.mem_cons.mp hx with hx1 | hx1
        · exact absurd (hx1 ▸ hdx) hd
        · exact ⟨x, hx1, hdx⟩
      simp only [hd, if_false, Bool.false_eq_true]
      cases sys.copy2Ok (osJoin sys.icos src item) (osJoin sys.icos dst item) with
      | none => exact ih _ h'
      | some m => rfl

theorem copyTreeLoop_all_files_of_true (sys : Sys) (src dst : String) (items : List String) :
    ∀ acc : List Eff, (copyTreeLoop sys src dst items acc).1 = OsRet.boolv true →
      ∀ item ∈ items, sys.isDir (osJoin sys.icos src item) = false := by
  induction items with
  | nil => intro acc _ item hitem; simp at hitem
  | cons item rest ih =>
    intro acc h x hx
    unfold copyTreeLoop at h
    by_cases hd : sys.isDir (osJoin sys.icos src item) = true
    · simp [hd] at h
    · have hd' : sys.isDir (osJoin sys.icos src item) = false := by
        revert hd; cases sys.isDir (osJoin sys.icos src item) <;> simp
      simp only [hd', Bool.false_eq_true, if_false] at h
      rcases List.mem_cons.mp hx with hx1 | hx1
      · exact hx1 ▸ hd'
      · cases hc : sys.copy2Ok (osJoin sys.icos src item) (osJoin sys.icos dst item) with
        | none =>
          rw [hc] at h
          exact ih _ h x hx1
        | some m => rw [hc] at h; simp at h

theorem copyTreeLoop_effs (sys : Sys) (src dst : String) (items : List String) :
    ∀ acc : List Eff, ∀ e ∈ (copyTreeLoop sys src dst items acc).2,
      e ∈ acc ∨ ∃ item ∈ items, sys.isDir (osJoin sys.icos src item) = false ∧
        e = Eff.copy2 (osJoin sys.icos src item) (osJoin sys.icos dst item) := by
  induction items with
  | nil => intro acc e he; exact Or.inl he
  | cons item rest ih =>
    intro acc e he
    unfold copyTreeLoop at he
    by_cases hd : sys.isDir (osJoin sys.icos src item) = true
    · simp only [hd, if_true] at he
      exact Or.inl he
    · have hd' : sys.isDir (osJoin sys.icos src item) = false := by
        revert hd; cases sys.isDir (osJoin sys.icos src item) <;> simp
      simp only [hd', Bool.false_eq_true, if_false] at he
      cases hc : sys.copy2Ok (osJoin sys.icos src item) (osJoin sys.icos dst item) with
      | none =>
        rw [hc] at he
        rcases ih _ e he with hacc | ⟨x, hx, hxd, hxe⟩
        · rcases List.mem_append.mp hacc with h1 | h1
          · exact Or.inl h1
          · refine Or.inr ⟨item, List.mem_cons_self item rest, hd', ?_⟩
            simpa using h1
        · exact Or.inr ⟨x, List.mem_cons_of_mem item hx, hxd, hxe⟩
      | some m =>
        rw [hc] at he
        rcases List.mem_append.mp he with h1 | h1
        · exact Or.inl h1
        · refine Or.inr ⟨item, List.mem_cons_self item rest, hd', ?_⟩
          simpa using h1

theorem copy_effs (sys : Sys) (a b : String) (quiet : Bool) :
    (copy sys a b quiet).2 =
      [Eff.copyfile (osNormpath sys.icos a) (osNormpath sys.icos b)] := by
  unfold copy
  cases h : sys.copyfileOk (osNormpath sys.icos a) (osNormpath sys.icos b) <;> simp [h]

/-- A benign baseline system: Linux target, empty environment, the
`IC_GLOBALS` file opens but `translation.rules` / `drives.mappings` are
missing (load errors), an empty filesystem, every primitive succeeding,
`IC_NUMRECENTFILES` defaulting to 10. -/
def sysDefault : Sys :=
  { icos := "linux"
    env := fun _ => none
    openGlobals := Except.ok ()
    loadRules := Except.error PyExc.keyError
    loadDrives := Except.error PyExc.keyError
    isFile := fun _ => false
    isDir := fun _ => false
    scandir := fun _ => []
    listdir := fun _ => []
    statId := fun _ => none
    removeOk := fun _ => none
    rmtreeOk := fun _ => none
    makedirsOk := fun _ => none
    renameOk := fun _ _ => none
    copyfileOk := fun _ _ => none
    moveOk := fun _ _ => none
    copy2Ok := fun _ _ => none
    numrecent := 10 }

/-- A system where opening/parsing the `IC_GLOBALS` file itself fails. -/
def sysOpenFail : Sys := { sysDefault with openGlobals := Except.error PyExc.ioError }

/-- First translation rule of the C2 scenario. -/
def ruleA : TrRule := { mac := "/a", win := "X:", linux := "/la" }

/-- Second translation rule of the C2 scenario; its `mac` prefix extends
`ruleA`'s, so both rules match the same input. -/
def ruleB : TrRule := { mac := "/a/b", win := "Y:", linux := "/lb" }

/-- Windows-target system whose configuration holds `[ruleA, ruleB]`. -/
def sysWinRules : Sys :=
  { sysDefault with icos := "win", loadRules := Except.ok [ruleA, ruleB] }

/-- Linux-target system whose configuration holds an empty rule list. -/
def sysLinuxNoRules : Sys := { sysDefault with loadRules := Except.ok [] }

/-- System whose `os.stat` gives `/a` and `/b` distinct file identities
(the hard link between them did not take). -/
def sysStatDiffer : Sys :=
  { sysDefault with statId := fun p => if p = "/a" then some 0 else some 1 }

/-- System where `os.makedirs` raises. -/
def sysMkFail : Sys := { sysDefault with makedirsOk := fun _ => some "PermissionError" }

/-- System whose directory `src` lists a plain file followed by a
subdirectory. -/
def sysTree : Sys :=
  { sysDefault with
    listdir := fun _ => ["file1", "subdir"]
    isDir := fun p => p = "src/subdir" }

/-- Helper for C6: a path on which no translation rule fires, which
normalization leaves unchanged and which does not end in a bare colon is a
fixed point of `translate_path`. -/
theorem translate_fixed (sys : Sys) (q : String)
    (hm : ∀ r ∈ rulesOfSys sys, ruleMatches sys.icos q r = false)
    (hn : absolute_path sys q false = q)
    (hc : pyEndsWith q ":" = false) :
    translate_path sys q = q := by
  unfold translate_path
  cases hg : sys.openGlobals with
  | error e => rfl
  | ok u =>
    cases hr : sys.loadRules with
    | error e => rfl
    | ok rules =>
      have hrules : rulesOfSys sys = rules := by unfold rulesOfSys; rw [hg, hr]
      show absolute_path sys (List.foldl (trStep sys.icos q) q rules) false = q
      rw [foldl_trStep_eq sys.icos q rules q,
        lastMatch_eq_none sys.icos q rules (hrules ▸ hm)]
      have hcf : colonFix q = q := by unfold colonFix; rw [hc]; simp
      by_cases hw : sys.icos = "win" ∧ rules ≠ ([] : List TrRule)
      · simp [hcf, hn]
      · simp [hw, hn]

/-- C1 counterexample: at a path that is neither an existing file nor an
existing directory, `remove` returns the SUCCESS tuple
`(True, normalizedPath)` — not a `(False, message)` failure — because the
`try` block's `if/elif` skips both deletions and still reaches
`return True, path`. -/
theorem c1_counterexample :
    sysDefault.isFile "/nonexistent" = false ∧
    sysDefault.isDir "/nonexistent" = false ∧
    (remove sysDefault "/nonexistent" false).1 = OsRet.pairS true "/nonexistent" := by
  refine ⟨rfl, rfl, ?_⟩
  decide

/-- C1 (amended): for every path that names neither an existing file nor an
existing directory, `remove(path, quiet)` performs no deletion and returns
the success result `(True, normalizedPath)`; it never raises (the model is
a total function). -/
theorem c1_remove_nonexistent (sys : Sys) (path : String) (quiet : Bool)
    (hf : sys.isFile (osNormpath sys.icos path) = false)
    (hd : sys.isDir (osNormpath sys.icos path) = false) :
    remove sys path quiet = (OsRet.pairS true (osNormpath sys.icos path), []) := by
  unfold remove
  simp [hf, hd]

/-- C1 witness: the amended theorem at a concrete missing path. -/
theorem c1_remove_nonexistent_witness :
    remove sysDefault "/missing.txt" true =
      (OsRet.pairS true (osNormpath sysDefault.icos "/missing.txt"), []) :=
  c1_remove_nonexistent sysDefault "/missing.txt" true rfl rfl

/-- C2 counterexample: on the Windows target with rules
`[{mac:/a, win:X:}, {mac:/a/b, win:Y:}]`, both rules match `/a/b/c`; the
FIRST matching rule's rewrite is `X:/b/c` (and a chain-rewrite of `X:/b/c`
by the second rule would also leave `X:/b/c`, since `X:/b/c` does not start
with `/a/b`), yet `translate_path` returns `Y:/c`: the LAST matching rule
wins, applied to the ORIGINAL input. -/
theorem c2_counterexample :
    ruleMatches "win" "/a/b/c" ruleA = true ∧
    ruleMatches "win" "/a/b/c" ruleB = true ∧
    absolute_path sysWinRules (applyRule "win" "/a/b/c" ruleA) false = "X:/b/c" ∧
    translate_path sysWinRules "/a/b/c" = "Y:/c" := by
  decide

/-- C2 (amended): `translate_path` tries the rules in sequence, but each
matching rule tests and rewrites the ORIGINAL input path and overwrites the
pending result, so the LAST matching rule wins and rules never chain-rewrite
each other's output; the result is `absolute_path` of that last rewrite
(with the Windows drive-colon fixup; a nonempty rule list with no match
still colon-fixes a path ending in a bare colon on the Windows target). -/
theorem c2_last_match_wins (sys : Sys) (path : String) (rules : List TrRule)
    (hg : sys.openGlobals = Except.ok ())
    (hr : sys.loadRules = Except.ok rules) :
    translate_path sys path =
      absolute_path sys (lastMatchTranslate sys.icos path rules) false := by
  simp only [translate_path, hg, hr]
  rw [foldl_trStep_eq sys.icos path rules path]
  rfl

/-- C2 witness: the amended theorem at the two-rule Windows scenario. -/
theorem c2_last_match_wins_witness :
    translate_path sysWinRules "/a/b/c" =
      absolute_path sysWinRules (lastMatchTranslate sysWinRules.icos "/a/b/c" [ruleA, ruleB]) false :=
  c2_last_match_wins sysWinRules "/a/b/c" [ruleA, ruleB] rfl rfl

/-- C3 counterexample: when hardlink verification fails (`os.stat` gives the
two paths different identities), `hardlink(src, dst, verify=True)` returns
Python's `None` — not the destination path the claim promises — because the
fallback branch calls `copy` but has no `return`. -/
theorem c3_counterexample :
    verify_hardlink sysStatDiffer "/a" "/b" = false ∧
    (hardlink sysStatDiffer "/a" "/b" true).1 = OsRet.pyNone := by
  decide

/-- C3 (amended): with `verify=True`, `hardlink` returns the resolved
destination path when `verify_hardlink` confirms the link; on verification
failure it logs the warning and falls back to `copy(src, dst)` — but then
returns `None`, not the destination path. -/
theorem c3_hardlink_fallback (sys : Sys) (source destination : String) :
    ((hardlink sys source destination true).1 =
      (if verify_hardlink sys (translate_path sys source)
            (hardlinkDst sys (translate_path sys source) (translate_path sys destination)) then
         OsRet.str (hardlinkDst sys (translate_path sys source) (translate_path sys destination))
       else OsRet.pyNone)) ∧
    (verify_hardlink sys (translate_path sys source)
        (hardlinkDst sys (translate_path sys source) (translate_path sys destination)) = false →
      Eff.warned "Failed to create hardlink. Attempting to copy file instead."
          ∈ (hardlink sys source destination true).2 ∧
      Eff.copyfile (osNormpath sys.icos (translate_path sys source))
          (osNormpath sys.icos
            (hardlinkDst sys (translate_path sys source) (translate_path sys destination)))
          ∈ (hardlink sys source destination true).2) := by
  constructor
  · cases hv : verify_hardlink sys (translate_path sys source)
        (hardlinkDst sys (translate_path sys source) (translate_path sys destination)) <;>
      simp [hardlink, hv]
  · intro hv
    simp [hardlink, hv, copy_effs, List.mem_append]

/-- C3 witness: the amended theorem's failure branch at a concrete system
whose `stat` identities differ. -/
theorem c3_hardlink_fallback_witness :
    Eff.warned "Failed to create hardlink. Attempting to copy file instead."
        ∈ (hardlink sysStatDiffer "/a" "/b" true).2 ∧
    Eff.copyfile "/a" "/b" ∈ (hardlink sysStatDiffer "/a" "/b" true).2 := by
  have h := (c3_hardlink_fallback sysStatDiffer "/a" "/b").2 (by decide)
  exact ⟨h.1, h.2⟩

/-- C4 counterexample: `mkdir` on a failing `os.makedirs` returns the bare
Python `False`, not a `(False, errorMessage)` two-part result. -/
theorem c4_counterexample :
    (mkdir sysMkFail "/p").1 = OsRet.boolv false ∧
    ((mkdir sysMkFail "/p").1).isPair = false := by
  decide

/-- C4 (amended): none of the six operations propagates an exception (each
is a total function on the model), but their result shapes differ: `remove`,
`rename` and `copy` do return `(flag, pathOrMessage)` tuples; `move` and
`copy_tree` return bare booleans; `mkdir` returns the bare path string on
success (or when the directory already exists) and the bare `False` on
failure — never a `(False, message)` tuple. -/
theorem c4_result_shapes (sys : Sys) (p q : String) (quiet : Bool) :
    ((remove sys p quiet).1).isPair = true ∧
    ((rename sys p q quiet).1).isPair = true ∧
    ((copy sys p q quiet).1).isPair = true ∧
    ((move sys p q quiet).1).isBool = true ∧
    ((copy_tree sys p q quiet).1).isBool = true ∧
    (((mkdir sys p).1).isStr = true ∨ (mkdir sys p).1 = OsRet.boolv false) := by
  refine ⟨?_, ?_, ?_, ?_, ?_, ?_⟩
  · unfold remove
    cases h1 : sys.isFile (osNormpath sys.icos p) <;>
      cases h2 : sys.isDir (osNormpath sys.icos p) <;>
        cases h3 : sys.removeOk (osNormpath sys.icos p) <;>
          cases h4 : sys.rmtreeOk (osNormpath sys.icos p) <;>
            simp [h1, h2, h3, h4, OsRet.isPair]
  · unfold rename
    cases h : sys.renameOk (osNormpath sys.icos p) (osNormpath sys.icos q) <;>
      simp [h, OsRet.isPair]
  · unfold copy
    cases h : sys.copyfileOk (osNormpath sys.icos p) (osNormpath sys.icos q) <;>
      simp [h, OsRet.isPair]
  · unfold move
    cases h : sys.moveOk (osNormpath sys.icos p) (osNormpath sys.icos q) <;>
      simp [h, OsRet.isBool]
  · unfold copy_tree
    exact copyTreeLoop_isBool sys (osNormpath sys.icos p) (osNormpath sys.icos q)
      (sys.listdir (osNormpath sys.icos p)) []
  · unfold mkdir
    cases h1 : sys.isDir (translate_path sys p)
    · cases h2 : sys.makedirsOk (translate_path sys p)
      · by_cases h3 : sys.icos = "win" ∧ pyStartsWith (ntBasename (translate_path sys p)) "." = true <;>
          simp [h1, h2, h3, OsRet.isStr]
      · simp [h1, h2]
    · simp [h1, OsRet.isStr]

/-- C5: `translate_path` is strictly best-effort — it is a total function of
its inputs (never raises), and whenever loading the configuration fails
(the `IC_GLOBALS` file missing or unreadable, its JSON malformed, or the
`translation.rules` field missing or ill-typed — all landing in the caught
classes AttributeError / IOError / KeyError / TypeError / ValueError), it
returns the original path unmodified, for every path including `""`. -/
theorem c5_translate_best_effort (sys : Sys) (path : String) (e : PyExc) :
    (sys.openGlobals = Except.error e → translate_path sys path = path) ∧
    (sys.loadRules = Except.error e → translate_path sys path = path) := by
  constructor
  · intro h; unfold translate_path; rw [h]
  · intro h; unfold translate_path; rw [h]; cases sys.openGlobals <;> rfl

/-- C5 witness: both failure stages at the empty-string path. -/
theorem c5_translate_best_effort_witness :
    translate_path sysOpenFail "" = "" ∧ translate_path sysDefault "" = "" :=
  ⟨(c5_translate_best_effort sysOpenFail "" PyExc.ioError).1 rfl,
   (c5_translate_best_effort sysDefault "" PyExc.keyError).2 rfl⟩

/-- C6 counterexample: with an EMPTY rule set (so no rule's foreign prefix
matches anything — the input is vacuously "in native form"), translation of
`a\\b` (two literal backslashes) gives `a//b`, but translating AGAIN gives
`a/b`: `translate(translate(p)) ≠ translate(p)`, because `absolute_path`'s
backslash-to-slash replacement happens after `normpath` and the second pass
re-normalizes the doubled slash it created. -/
theorem c6_counterexample :
    rulesOfSys sysLinuxNoRules = [] ∧
    translate_path sysLinuxNoRules "a\\\\b" = "a//b" ∧
    translate_path sysLinuxNoRules (translate_path sysLinuxNoRules "a\\\\b") = "a/b" := by
  refine ⟨rfl, ?_, ?_⟩ <;> decide

/-- C6 (amended): `translate_path` is idempotent at `p` provided its OUTPUT
`translate(p)` matches no rule's foreign prefix, is a fixed point of
`absolute_path` normalization, and does not end in a bare drive colon: then
`translate(translate(p)) = translate(p)`. -/
theorem c6_translate_idempotent (sys : Sys) (p : String)
    (hm : ∀ r ∈ rulesOfSys sys, ruleMatches sys.icos (translate_path sys p) r = false)
    (hn : absolute_path sys (translate_path sys p) false = translate_path sys p)
    (hc : pyEndsWith (translate_path sys p) ":" = false) :
    translate_path sys (translate_path sys p) = translate_path sys p :=
  translate_fixed sys (translate_path sys p) hm hn hc

/-- C6 witness: the amended theorem at a native Linux path under an empty
rule set. -/
theorem c6_translate_idempotent_witness :
    translate_path sysLinuxNoRules (translate_path sysLinuxNoRules "/mnt/x") =
      translate_path sysLinuxNoRules "/mnt/x" :=
  c6_translate_idempotent sysLinuxNoRules "/mnt/x"
    (fun r hr2 => absurd hr2 (List.not_mem_nil r))
    (by decide) (by decide)

/-- C7: `convert_unc_path_to_drive` is a no-op (returns its argument
unchanged) whenever `IC_OS` is not the Windows target; on the Windows
target it normalizes the path and matches its prefix against each mapping
entry's UNC VALUE (not its drive-letter key), a matching entry replacing
that prefix by the key (with the drive-colon fixup); with several matching
entries the LAST one in iteration order wins (`driveLastMatchResult`).
Configuration failures fall back to the original argument (open/parse
stage) or the normalized path (mapping-extraction stage, which the source
reaches only after rebinding `path`). -/
theorem c7_unc_to_drive (sys : Sys) (path : String) :
    convert_unc_path_to_drive sys path =
      (if sys.icos ≠ "win" then path
       else
         match sys.openGlobals with
         | .error _ => path
         | .ok _ =>
           match sys.loadDrives with
           | .error _ => absolute_path sys path false
           | .ok ms => driveLastMatchResult (absolute_path sys path false) ms) := by
  unfold convert_unc_path_to_drive
  by_cases hw : sys.icos ≠ "win"
  · simp [hw]
  · simp only [hw, if_false]
    cases hg : sys.openGlobals with
    | error e => rfl
    | ok u =>
      cases hd : sys.loadDrives with
      | error e => rfl
      | ok ms =>
        show List.foldl (driveStep (absolute_path sys path false)) (absolute_path sys path false) ms = _
        rw [foldl_driveStep_eq (absolute_path sys path false) ms (absolute_path sys path false)]
        rfl

/-- C8: `walk(top, 1)` yields exactly one triple — the normalized `top`
with its subdirectory and file listings — and no recursion happens;
`walk(top, 2)` yields that same first triple followed by exactly one triple
per immediate subdirectory of `top`, in listing order. -/
theorem c8_walk_depths (sys : Sys) (top : String) :
    walk sys top 1 =
      [(osNormpath sys.icos top, walkDirs sys (osNormpath sys.icos top),
        walkFiles sys (osNormpath sys.icos top))] ∧
    walk sys top 2 =
      (osNormpath sys.icos top, walkDirs sys (osNormpath sys.icos top),
        walkFiles sys (osNormpath sys.icos top)) ::
        (walkDirs sys (osNormpath sys.icos top)).map
          (fun p => (osNormpath sys.icos p, walkDirs sys (osNormpath sys.icos p),
            walkFiles sys (osNormpath sys.icos p))) := by
  constructor
  · rfl
  · have h2 : walk sys top 2 =
        (osNormpath sys.icos top, walkDirs sys (osNormpath sys.icos top),
          walkFiles sys (osNormpath sys.icos top)) ::
          (walkDirs sys (osNormpath sys.icos top)).flatMap (fun p => walk sys p 1) := rfl
    rw [h2, flatMap_single (walkDirs sys (osNormpath sys.icos top)) (fun p => walk sys p 1)
      (fun p => (osNormpath sys.icos p, walkDirs sys (osNormpath sys.icos p),
        walkFiles sys (osNormpath sys.icos p))) (fun p => rfl)]

/-- The initial (empty) recent-list store with default key. -/
def recentEmpty : RecentState := { dict := [], key := "default" }

/-- C9: with `IC_NUMRECENTFILES = 10`, putting `a`, `b`, `c` in that order
makes `get()` return `[c, b, a]` (most-recent-first); re-putting `a` moves
it to the front, `[a, c, b]`; and putting an 11th distinct entry truncates
the oldest one (`e1` is gone, the newest 10 remain): put is
dedup-then-prepend-then-truncate. -/
theorem c9_recent_put_get :
    Recent.get sysDefault
        (Recent.put sysDefault (Recent.put sysDefault
          (Recent.put sysDefault recentEmpty "a" none) "b" none) "c" none) none
      = ["c", "b", "a"] ∧
    Recent.get sysDefault
        (Recent.put sysDefault (Recent.put sysDefault (Recent.put sysDefault
          (Recent.put sysDefault recentEmpty "a" none) "b" none) "c" none) "a" none) none
      = ["a", "c", "b"] ∧
    Recent.get sysDefault
        (["e1", "e2", "e3", "e4", "e5", "e6", "e7", "e8", "e9", "e10", "e11"].foldl
          (fun st e => Recent.put sysDefault st e none) recentEmpty) none
      = ["e11", "e10", "e9", "e8", "e7", "e6", "e5", "e4", "e3", "e2"] ∧
    "e1" ∉ Recent.get sysDefault
        (["e1", "e2", "e3", "e4", "e5", "e6", "e7", "e8", "e9", "e10", "e11"].foldl
          (fun st e => Recent.put sysDefault st e none) recentEmpty) none := by
  refine ⟨by decide, by decide, by decide, by decide⟩

/-- C10: `copy_tree` reports failure whenever the source's top level
contains at least one subdirectory — even with every underlying OS copy
succeeding — because the subdirectory branch evaluates the unbound names
`symlinks` / `ignore` (a `NameError` swallowed by the bare `except`); it
can report success only when the top level has no subdirectory; and every
effect it performs is a top-level plain-file copy (nothing under any
subdirectory is copied). -/
theorem c10_copy_tree_top_subdir (sys : Sys) (source destination : String) (quiet : Bool) :
    ((∃ item ∈ sys.listdir (osNormpath sys.icos source),
        sys.isDir (osJoin sys.icos (osNormpath sys.icos source) item) = true) →
      (copy_tree sys source destination quiet).1 = OsRet.boolv false) ∧
    ((copy_tree sys source destination quiet).1 = OsRet.boolv true →
      ∀ item ∈ sys.listdir (osNormpath sys.icos source),
        sys.isDir (osJoin sys.icos (osNormpath sys.icos source) item) = false) ∧
    (∀ e ∈ (copy_tree sys source destination quiet).2,
      ∃ item ∈ sys.listdir (osNormpath sys.icos source),
        sys.isDir (osJoin sys.icos (osNormpath sys.icos source) item) = false ∧
        e = Eff.copy2 (osJoin sys.icos (osNormpath sys.icos source) item)
              (osJoin sys.icos (osNormpath sys.icos destination) item)) := by
  refine ⟨?_, ?_, ?_⟩
  · intro h
    exact copyTreeLoop_false_of_dir sys (osNormpath sys.icos source)
      (osNormpath sys.icos destination) (sys.listdir (osNormpath sys.icos source)) [] h
  · intro h
    exact copyTreeLoop_all_files_of_true sys (osNormpath sys.icos source)
      (osNormpath sys.icos destination) (sys.listdir (osNormpath sys.icos source)) [] h
  · intro e he
    rcases copyTreeLoop_effs sys (osNormpath sys.icos source)
        (osNormpath sys.icos destination) (sys.listdir (osNormpath sys.icos source)) [] e he with
      h1 | h1
    · exact absurd h1 (List.not_mem_nil e)
    · exact h1

/-- C10 witness: a source listing a file then a subdirectory fails. -/
theorem c10_copy_tree_top_subdir_witness :
    (copy_tree sysTree "src" "dst" false).1 = OsRet.boolv false :=
  (c10_copy_tree_top_subdir sysTree "src" "dst" false).1
    ⟨"subdir", by decide, by decide⟩
